import Mathlib

/-!
Shallow embedding of `src/resnet-posture/train.py`, the single source file of
this repository (a ResNet-backed heatmap-regression training driver).

Modelling conventions:
* Tensors are flattened lists of rationals (`List ℚ`); float arithmetic is
  modelled over `ℚ`, which is faithful for every control-flow property at
  stake (comparisons of loss values, accumulator updates).
* `float('inf')` (the initial "best" loss) is modelled by the dedicated
  constructor `BestVal.inf`, with `ltBest` mirroring Python's `<` against
  infinity.
* The framework collaborators (autograd, optimizer, data loader, the model's
  forward pass) are parameters: `fw : List ℚ → Tensor → Tensor` is the
  model's forward function applied to the current parameter vector, and
  `ou : List ℚ → Batch → List ℚ` is the parameter update performed by
  `loss.backward(); optimizer.step()`.  Data loaders are plain batch lists.
* Logging side effects (`args.writer.add_scalar`, `add_image`, `flush`,
  `close`, the console `print`, checkpoint writes, validation-pass entry) are
  recorded in an event trace `Args.events` (newest first).  Calls on
  `args.writer` go through `emit`, which increments `writerAccesses` on every
  call and records the event only when the writer handle is present
  (`train.py` never assigns `args.writer` in this module — see C10 — and an
  access with no handle would raise `AttributeError` at runtime).
  Non-writer effects (stdout print, checkpoint-store writes, the fact that a
  validation pass ran) are recorded unconditionally via `trace`.
* Functions imported from `utils` (`restore_checkpoint`, `process_checkpoint`,
  `read_checkpoint`, `create_run_name`, `get_max`) are not part of this
  repository snapshot; they are modelled from the spec and say so in their
  doc comments.
-/

namespace Posture

/-- A flattened tensor: list of rational activations. -/
abbrev Tensor := List ℚ

/-- One (input image, target heatmap) pair yielded by a data-loader iteration. -/
structure Batch where
  inputs : Tensor
  targets : Tensor
  deriving DecidableEq, Repr

/-- The value of `args.best`: `float('inf')` initially, a finite loss after an
update.  Mirrors the Python float with infinity. -/
inductive BestVal where
  | inf
  | val (q : ℚ)
  deriving DecidableEq, Repr

/-- Python's `loss < best` where `best` may be `float('inf')`. -/
def ltBest (l : ℚ) : BestVal → Bool
  | .inf => true
  | .val b => decide (l < b)

/-- A constructed optimizer object (`optim.Adam(...)` / `optim.SGD(...)`):
its kind and learning rate stand in for the framework object. -/
structure OptimizerObj where
  kindName : String
  lr : ℚ
  deriving DecidableEq, Repr

/-- The `args.optimizer` attribute: the parsed kind string before `train()`
runs, the constructed optimizer object afterwards (train.py lines 166-171
rebind the attribute). -/
inductive OptimizerField where
  | kind (name : String)
  | inst (o : OptimizerObj)
  deriving DecidableEq, Repr

/-- A persisted checkpoint snapshot: model weights, optimizer state, best
loss and global step (spec §4.4 / §3 "Checkpoint"). -/
structure Checkpoint where
  weights : List ℚ
  optState : OptimizerObj
  bestLoss : ℚ
  step : Nat
  deriving DecidableEq, Repr

/-- Events observable in the trace: tensorboard scalar/image writes, the
writer flush/close calls, the console progress print, checkpoint-store
writes, and entry into a validation pass. -/
inductive Ev where
  | scalar (tag : String) (value : ℚ) (step : Nat)
  | image (tag : String) (step : Nat)
  | flushEv
  | console (epoch : Nat) (batch_idx : Nat)
  | ckptWrite (bestLoss : ℚ) (step : Nat)
  | validRun (step : Nat)
  | closeWriter
  deriving DecidableEq, Repr

/-- The mutable `args` namespace object of train.py: parsed options plus every
attribute the module attaches to it.  `dataset_size` and `train_percentage`
are omitted: they are only interpolated into the console progress text, which
the `Ev.console` event abstracts. -/
structure Args where
  batch_size : Nat
  log_interval : Nat
  epochs : Nat
  device : String
  network : String
  image_shape : List Nat
  optimizer : OptimizerField
  learning_rate : ℚ
  sigma : ℚ
  dataset : String
  checkpoint : String
  predict : Option Bool
  plot : Option Bool
  summary : Option Bool
  run : String
  writer : Option Unit
  writerAccesses : Nat
  best : BestVal
  running_loss : ℚ
  train_loss : ℚ
  train_acc : ℚ
  dataloader_size : Nat
  netParams : List ℚ
  ckptStore : Option Checkpoint
  events : List Ev
  deriving DecidableEq, Repr

/-- A call on `args.writer` (add_scalar / add_image / flush / close): always
counts as an attribute access; the event reaches the sink only when the
handle exists. -/
def emit (s : Args) (e : Ev) : Args :=
  { s with
    writerAccesses := s.writerAccesses + 1,
    events := match s.writer with
      | some _ => e :: s.events
      | none => s.events }

/-- A non-writer side effect (stdout print, checkpoint-store write,
validation-pass entry): recorded unconditionally. -/
def trace (s : Args) (e : Ev) : Args :=
  { s with events := e :: s.events }

/-- `torch.nn.MSELoss()`: mean over all elements of the squared error
(train.py line 174 / 205). -/
def mseLoss (output target : Tensor) : ℚ :=
  ((List.zipWith (fun a b => (a - b) ^ 2) output target).sum) / (output.length : ℚ)

/-- train.py line 78: `global_step = batch_idx + len(train_loader) * epoch`. -/
def global_step (batch_idx dataloader_size epoch : Nat) : Nat :=
  batch_idx + dataloader_size * epoch

/-- `enumerate(train_loader, 1)` (train.py line 188): the in-epoch batch index
of the k-th batch processed in an epoch of `len` batches, 1-indexed. -/
def batchIdxAt (len k : Nat) : Nat := k % len + 1

/-- The epoch containing the k-th batch processed overall (k counts loop
iterations across the whole run, starting at 0). -/
def epochAt (len k : Nat) : Nat := k / len

/-- The global step logged at the k-th loop iteration of the run. -/
def globalStepAt (len k : Nat) : Nat :=
  global_step (batchIdxAt len k) len (epochAt len k)

/-- The spec's version of the global step (§8): 0-indexed batch index plus
epoch times batches-per-epoch.  Kept separate from `global_step` (translated
from the code) to compare the two. -/
def specGlobalStep (batchIdx0 epoch len : Nat) : Nat :=
  batchIdx0 + epoch * len

/-- train.py lines 114-135: four image grids written under
`name`/gt, gt_image, pred, pred_image at the given step; the pixel contents
(inputs/targets/outputs) do not affect any claim and are not modelled. -/
def add_tensorboard (gs : Nat) (name : String) (s : Args) : Args :=
  let s := emit s (.image (name ++ "/gt") gs)
  let s := emit s (.image (name ++ "/gt_image") gs)
  let s := emit s (.image (name ++ "/pred") gs)
  emit s (.image (name ++ "/pred_image") gs)

/-- Modelled from the spec: `process_checkpoint` is imported from `utils`,
which is not part of this repository snapshot.  Per §4.4, "given the most
recent training loss and the current best, if the new loss is strictly lower,
persist (model state, optimizer state, new best, global step) to the
checkpoint store under the current run identifier and update best; otherwise
no write occurs". -/
def process_checkpoint (loss : ℚ) (gs : Nat) (s : Args) : Args :=
  if ltBest loss s.best then
    let s := trace s (.ckptWrite loss gs)
    { s with
      best := .val loss,
      ckptStore := some ⟨s.netParams,
        (match s.optimizer with
         | .inst o => o
         | .kind n => ⟨n, s.learning_rate⟩), loss, gs⟩ }
  else s

/-- Modelled from the spec: `restore_checkpoint` is imported from `utils`,
absent from this snapshot.  Per §4.4, restoring "must reproduce (model
weights, optimizer state, best loss, step) exactly"; the saved step has no
training-loop variable to be restored into (the loop recomputes
`global_step` from epoch 0, batch 1), so only weights, optimizer state and
best loss land in `args`. -/
def restore_checkpoint (s : Args) : Args :=
  match s.ckptStore with
  | some c => { s with netParams := c.weights, optimizer := .inst c.optState,
                       best := .val c.bestLoss }
  | none => s

/-- Python truthiness of an argparse attribute that may be a Bool. -/
def truthy : Option Bool → Bool
  | none => false
  | some b => b

/-- argparse `action='store_true'` (train.py lines 63-65): the parsed
attribute is `False` by default and `True` when the flag is given — it is
never `None`. -/
def storeTrueParse (flagPresent : Bool) : Option Bool := some flagPresent

/-- Sum of per-batch MSE losses of a validation pass (helper mirroring the
`run_loss` accumulator of `validate`). -/
def validLossSum (fw : List ℚ → Tensor → Tensor) (params : List ℚ)
    (batches : List Batch) : ℚ :=
  (batches.map (fun b => mseLoss (fw params b.inputs) b.targets)).sum

/-- train.py lines 232-252: the body of `validate`'s loop over
`enumerate(valid_loader, 1)`.  Accumulates per-batch MSE and, on the first
batch only, writes the four-way grid under `Valid`. -/
def validateLoop (fw : List ℚ → Tensor → Tensor) (gs : Nat) :
    Nat → List Batch → Args → Args × ℚ
  | _, [], s => (s, 0)
  | batch_idx, b :: rest, s =>
    let outputs := fw s.netParams b.inputs
    let loss := mseLoss outputs b.targets
    let s := if batch_idx = 1 then add_tensorboard gs "Valid" s else s
    let r := validateLoop fw gs (batch_idx + 1) rest s
    (r.1, loss + r.2)

/-- train.py lines 222-259: `validate`.  One full pass over the validation
batches (forward only, no optimizer step), returning the arithmetic mean of
the per-batch losses; logs `Valid/loss` when `log_info` is set.  The
`Ev.validRun` trace marker records that a validation pass was entered. -/
def validate (fw : List ℚ → Tensor → Tensor) (validBatches : List Batch)
    (log_info : Bool) (gs : Nat) (s : Args) : Args × ℚ :=
  let s := trace s (.validRun gs)
  let r := validateLoop fw gs 1 validBatches s
  let vloss := r.2 / (validBatches.length : ℚ)
  let s := if log_info then emit r.1 (.scalar "Valid/loss" vloss gs) else r.1
  (s, vloss)

/-- train.py lines 75-111: `batch_status`.  Updates the running accumulators,
logs the instantaneous loss, and — exactly when the global step is a multiple
of `log_interval` — validates, writes the train visualization grids,
evaluates the checkpoint policy, prints the progress line and resets the
interval accumulator; flushes the writer on every call. -/
def batch_status (fw : List ℚ → Tensor → Tensor) (batch_idx : Nat)
    (epoch : Nat) (validBatches : List Batch) (loss : ℚ) (s : Args) : Args :=
  let gs := global_step batch_idx s.dataloader_size epoch
  let s := { s with running_loss := s.running_loss + loss,
                    train_loss := s.train_loss + loss }
  let s := emit s (.scalar "Train/loss" loss gs)
  let s :=
    if gs % s.log_interval = 0 then
      let r := validate fw validBatches true gs s
      let s := add_tensorboard gs "Train" r.1
      let s := process_checkpoint loss gs s
      let s := trace s (.console epoch batch_idx)
      { s with running_loss := 0 }
    else s
  emit s .flushEv

/-- train.py lines 166-171: rebind `args.optimizer` from the parsed kind
string to the constructed optimizer object. -/
def setOptimizer (s : Args) : Args :=
  match s.optimizer with
  | .kind "adam" => { s with optimizer := .inst ⟨"adam", s.learning_rate⟩ }
  | .kind "sgd" => { s with optimizer := .inst ⟨"sgd", s.learning_rate⟩ }
  | o => { s with optimizer := o }

/-- train.py lines 140-180: the initialization part of `train` — store the
loader length, optionally log the plot sample, construct the optimizer,
restore the checkpoint, then set `args.best = float('inf')`.  Lines 149-151
additionally draw two batches from a fresh loader iterator for the plot
sample; on a partition with fewer than two batches the source raises
StopIteration there, so concrete instantiations of `train`/`trainInit` below
use partitions of at least two batches, where that prefetch succeeds and is
otherwise effect-free on `args`. -/
def trainInit (trainBatches : List Batch) (s : Args) : Args :=
  let s := { s with dataloader_size := trainBatches.length }
  let s := if truthy s.plot then emit s (.image "Sample" 0) else s
  let s := setOptimizer s
  let s := restore_checkpoint s
  { s with best := .inf }

/-- train.py lines 188-213: one iteration of the batch loop — forward,
MSE loss, backward + optimizer step (the framework parameter update `ou`),
then `batch_status`. -/
def trainBatchStep (fw : List ℚ → Tensor → Tensor)
    (ou : List ℚ → Batch → List ℚ) (epoch : Nat) (validBatches : List Batch)
    (batch_idx : Nat) (b : Batch) (s : Args) : Args :=
  let outputs := fw s.netParams b.inputs
  let loss := mseLoss outputs b.targets
  let s := { s with netParams := ou s.netParams b }
  batch_status fw batch_idx epoch validBatches loss s

/-- The batch loop of one epoch, `enumerate(train_loader, 1)`. -/
def trainBatches (fw : List ℚ → Tensor → Tensor)
    (ou : List ℚ → Batch → List ℚ) (epoch : Nat) (validBatches : List Batch) :
    Nat → List Batch → Args → Args
  | _, [], s => s
  | batch_idx, b :: rest, s =>
    trainBatches fw ou epoch validBatches (batch_idx + 1) rest
      (trainBatchStep fw ou epoch validBatches batch_idx b s)

/-- train.py lines 184-216: one epoch — reset the accumulators, then run the
batch loop from index 1. -/
def trainEpoch (fw : List ℚ → Tensor → Tensor)
    (ou : List ℚ → Batch → List ℚ) (trainB validB : List Batch)
    (epoch : Nat) (s : Args) : Args :=
  let s := { s with train_loss := 0, train_acc := 0, running_loss := 0 }
  trainBatches fw ou epoch validB 1 trainB s

/-- `for epoch in range(args.epochs)`, starting at `e` with `n` epochs left. -/
def trainEpochsFrom (fw : List ℚ → Tensor → Tensor)
    (ou : List ℚ → Batch → List ℚ) (trainB validB : List Batch) :
    Nat → Nat → Args → Args
  | _, 0, s => s
  | e, n + 1, s =>
    trainEpochsFrom fw ou trainB validB (e + 1) n
      (trainEpoch fw ou trainB validB e s)

/-- train.py lines 138-219: `train`. -/
def train (fw : List ℚ → Tensor → Tensor) (ou : List ℚ → Batch → List ℚ)
    (trainB validB : List Batch) (s : Args) : Args :=
  let s := trainInit trainB s
  trainEpochsFrom fw ou trainB validB 0 s.epochs s

/-- A single channel of a batched tensor viewed along dims (2, 3):
rows of columns of activations. -/
abbrev Chan := List (List ℚ)

/-- A channelled tensor (the view `predict_test` takes of inputs/outputs). -/
abbrev CTensor := List Chan

/-- A test batch carrying the channelled view. -/
structure PBatch where
  inputs : CTensor
  targets : CTensor
  deriving DecidableEq, Repr

/-- All cells of a channel with their (row, column) coordinates. -/
def enumCells (m : Chan) : List ((Nat × Nat) × ℚ) :=
  (m.enum.map (fun r => r.2.enum.map (fun c => ((r.1, c.1), c.2)))).flatten

/-- The 2-D coordinate of the maximum activation of a channel (first
occurrence in row-major order; (0, 0) for an empty channel). -/
def argmax2d (m : Chan) : Nat × Nat :=
  match enumCells m with
  | [] => (0, 0)
  | c :: cs => (cs.foldl (fun best x => if x.2 > best.2 then x else best) c).1

/-- Modelled from the spec: `get_max` is imported from `utils`, absent from
this snapshot.  Per §4.5, it "extracts, per channel, the 2-D coordinate of
the maximum activation" along dims (2, 3). -/
def get_max (t : CTensor) : List (Nat × Nat) := t.map argmax2d

/-- MSE over a channelled tensor (flatten, then `mseLoss`). -/
def mseLossC (output target : CTensor) : ℚ :=
  mseLoss (output.map List.flatten).flatten (target.map List.flatten).flatten

/-- The per-batch result `predict_test` computes: the per-channel argmax
coordinates of the input tensor and of the predicted heatmaps. -/
structure PredOut where
  idx_inpt : List (Nat × Nat)
  idx_otpt : List (Nat × Nat)
  deriving DecidableEq, Repr

/-- Processing of one test batch (train.py lines 278-303): forward pass,
per-channel argmax of inputs and outputs.  No backward pass, no optimizer
step. -/
def predictBatch (fwc : List ℚ → CTensor → CTensor) (params : List ℚ)
    (b : PBatch) : PredOut :=
  ⟨get_max b.inputs, get_max (fwc params b.inputs)⟩

/-- train.py lines 278-311: the loop of `predict_test` over
`enumerate(test_loader, 1)`.  Every iteration fully processes its batch
(forward, argmax extraction, loss accumulation) BEFORE the
`if batch_idx < 10: pass else: break` bound is consulted, so the break fires
only after the 10th batch has been processed. -/
def predictLoop (fwc : List ℚ → CTensor → CTensor) (params : List ℚ) :
    Nat → List PBatch → List PredOut × ℚ
  | _, [] => ([], 0)
  | batch_idx, b :: rest =>
    let p := predictBatch fwc params b
    let loss := mseLossC (fwc params b.inputs) b.targets
    if batch_idx < 10 then
      let r := predictLoop fwc params (batch_idx + 1) rest
      (p :: r.1, loss + r.2)
    else ([p], loss)

/-- train.py lines 262-311: `predict_test` — restore the checkpoint, set the
MSE criterion, then run the bounded forward-only loop.  The computed argmax
coordinates are printed and discarded by the source; the model returns them
as the observable of the loop. -/
def predict_test (fwc : List ℚ → CTensor → CTensor) (testBatches : List PBatch)
    (s : Args) : Args × List PredOut :=
  let s := restore_checkpoint s
  let r := predictLoop fwc s.netParams 1 testBatches
  (s, r.1)

/-- train.py lines 320-323: `if args.device != 'cpu': args.device =
torch.device('cuda:0' if torch.cuda.is_available() else 'cpu')`.  Total: no
error is raised when the accelerator is absent; the CPU is selected
silently. -/
def resolveDevice (device : String) (cuda_available : Bool) : String :=
  if device ≠ "cpu" then (if cuda_available then "cuda:0" else "cpu") else device

/-- Modelled from the spec: `read_checkpoint` is imported from `utils`,
absent from this snapshot.  Per §4.1 it reads persisted hyperparameters and
merges them into the record; no claim depends on the merged values, so it is
the identity on the modelled fields. -/
def read_checkpoint (s : Args) : Args := s

/-- Modelled from the spec: `create_run_name` is imported from `utils`,
absent from this snapshot.  Per §4.1 it finalizes "a human-readable run
identifier derived from the merged values". -/
def create_run_name (s : Args) : String :=
  s.network ++ "-" ++ s.dataset ++ "-" ++ s.device ++ "-" ++
    toString s.batch_size ++ "-" ++ toString s.epochs

/-- train.py lines 314-343: the setup part of `main` — device resolution,
checkpoint read (guarded by Python truthiness of the path string, and "none"
is truthy), run naming, and the `if args.predict is None` writer guard. -/
def mainSetup (cuda_available : Bool) (s : Args) : Args :=
  let s := { s with device := resolveDevice s.device cuda_available }
  let s := if s.checkpoint ≠ "" then read_checkpoint s else s
  let s := { s with run := create_run_name s }
  if s.predict.isNone then { s with writer := some () } else s

/-- train.py lines 314-392: `main` — setup, network creation (the initial
parameter vector), the summary early return, the predict/train dispatch, and
the `if args.predict is None` writer-close guard. -/
def mainRun (fw : List ℚ → Tensor → Tensor) (ou : List ℚ → Batch → List ℚ)
    (fwc : List ℚ → CTensor → CTensor) (initParams : List ℚ)
    (trainB validB : List Batch) (testB : List PBatch)
    (cuda_available : Bool) (a : Args) : Args :=
  let s := mainSetup cuda_available a
  let s := { s with netParams := initParams }
  if truthy s.summary then s
  else
    let s := if truthy s.predict then (predict_test fwc testB s).1
             else train fw ou trainB validB s
    if s.predict.isNone then emit s .closeWriter else s

/-- The configuration fields the spec's RunConfig lists (minus the optimizer
field, which `train` rebinds — see C8): batch size, epochs, learning rate,
image shape, sigma, device, dataset/network identifiers, checkpoint path,
run name. -/
structure ConfigView where
  batch_size : Nat
  epochs : Nat
  learning_rate : ℚ
  image_shape : List Nat
  sigma : ℚ
  device : String
  dataset : String
  network : String
  checkpoint : String
  run : String
  deriving DecidableEq, Repr

/-- Projection of `Args` onto the spec's listed configuration fields. -/
def config (s : Args) : ConfigView :=
  ⟨s.batch_size, s.epochs, s.learning_rate, s.image_shape, s.sigma,
   s.device, s.dataset, s.network, s.checkpoint, s.run⟩

/-- The steps at which `Train/loss` scalars were logged, newest first. -/
def trainLossSteps (evs : List Ev) : List Nat :=
  evs.filterMap fun e =>
    match e with
    | .scalar t _ st => if t = "Train/loss" then some st else none
    | _ => none

/-- The loss values of the checkpoint writes in a trace, newest first. -/
def ckptWrites (evs : List Ev) : List ℚ :=
  evs.filterMap fun e =>
    match e with
    | .ckptWrite v _ => some v
    | _ => none

/-- Folding a sequence of checkpoint-eligible losses through the checkpoint
policy (the loss sequence of the spec's §8 example scenario). -/
def ckptFold (losses : List ℚ) (s : Args) : Args :=
  losses.foldl (fun t l => process_checkpoint l 0 t) s

/-- The parsed defaults of train.py's argument parser (lines 19-72), with the
post-hoc attributes in their pre-assignment state. -/
def args0 : Args where
  batch_size := 16
  log_interval := 50
  epochs := 2
  device := "cpu"
  network := "posture"
  image_shape := [256, 192]
  optimizer := .kind "adam"
  learning_rate := mkRat 1 10000
  sigma := 2
  dataset := "coco"
  checkpoint := "none"
  predict := storeTrueParse false
  plot := storeTrueParse false
  summary := storeTrueParse false
  run := ""
  writer := none
  writerAccesses := 0
  best := .inf
  running_loss := 0
  train_loss := 0
  train_acc := 0
  dataloader_size := 0
  netParams := []
  ckptStore := none
  events := []

/-- `args0` with the writer handle attached (the state under which the
logging-trace claims are stated). -/
def args0w : Args := { args0 with writer := some () }

/-- `args0w` with one epoch: the concrete run for the global-step trace. -/
def args0e1 : Args := { args0w with epochs := 1 }

/-- A trivial forward function: the model echoes its input. -/
def fw0 : List ℚ → Tensor → Tensor := fun _ x => x

/-- A trivial optimizer update: parameters unchanged. -/
def ou0 : List ℚ → Batch → List ℚ := fun p _ => p

/-- A trivial channelled forward function. -/
def fwc0 : List ℚ → CTensor → CTensor := fun _ x => x

/-- A zero training batch (loss 0 under `fw0`). -/
def zeroBatch : Batch := ⟨[0], [0]⟩

/-- Seven zero batches: the spec's "7 batches/epoch" example scenario. -/
def sevenBatches : List Batch := List.replicate 7 zeroBatch

/-- A one-cell test batch. -/
def pBatch0 : PBatch := ⟨[[[1]]], [[[1]]]⟩

/-- Twelve test batches: more than the loop bound of `predict_test`. -/
def twelveBatches : List PBatch := List.replicate 12 pBatch0

/-- A stored checkpoint with best loss 1/2 at step 100. -/
def ckptHalf : Checkpoint := ⟨[1], ⟨"adam", mkRat 1 10000⟩, mkRat 1 2, 100⟩

/-- `args0` as restored-run input: a checkpoint with best loss 1/2 is
present in the store. -/
def argsResume : Args := { args0 with ckptStore := some ckptHalf }

/-- `s'` extends the event trace of `s`: events are only ever prepended, and
the training/validation/inference loops never emit a writer-close event. -/
def evExt (s s' : Args) : Prop :=
  ∃ d, s'.events = d ++ s.events ∧ Ev.closeWriter ∉ d

/-- The fields no training/validation/inference loop operation touches:
the spec's configuration record (minus the optimizer field), the three CLI
flags, the writer handle, and the log interval. -/
def quietView (s : Args) :
    ConfigView × (Option Bool × Option Bool × Option Bool) × Option Unit × Nat :=
  (config s, (s.predict, s.plot, s.summary), s.writer, s.log_interval)

/-- The model-facing state `validate` leaves untouched: parameters, best
loss, checkpoint store. -/
def modelView (s : Args) : List ℚ × BestVal × Option Checkpoint :=
  (s.netParams, s.best, s.ckptStore)

theorem evExt_refl (s : Args) : evExt s s :=
  ⟨[], by simp, by simp⟩

theorem evExt_trans {s t u : Args} (h1 : evExt s t) (h2 : evExt t u) : evExt s u := by
  obtain ⟨d1, he1, hn1⟩ := h1
  obtain ⟨d2, he2, hn2⟩ := h2
  refine ⟨d2 ++ d1, by rw [he2, he1, List.append_assoc], ?_⟩
  intro hmem
  rcases List.mem_append.mp hmem with h | h
  · exact hn2 h
  · exact hn1 h

theorem evExt_mem {s s' : Args} (h : evExt s s') {e : Ev} (he : e ∈ s.events) :
    e ∈ s'.events := by
  obtain ⟨d, hd, _⟩ := h
  rw [hd]
  exact List.mem_append_right d he

theorem evExt_not_mem {s s' : Args} (h : evExt s s') (hn : Ev.closeWriter ∉ s.events) :
    Ev.closeWriter ∉ s'.events := by
  obtain ⟨d, hd, hdn⟩ := h
  rw [hd]
  intro hmem
  rcases List.mem_append.mp hmem with h | h
  · exact hdn h
  · exact hn h

@[simp] theorem emit_quietView (s : Args) (e : Ev) : quietView (emit s e) = quietView s := rfl

@[simp] theorem emit_modelView (s : Args) (e : Ev) : modelView (emit s e) = modelView s := rfl

@[simp] theorem emit_config (s : Args) (e : Ev) : config (emit s e) = config s := rfl

@[simp] theorem emit_writer (s : Args) (e : Ev) : (emit s e).writer = s.writer := rfl

@[simp] theorem emit_netParams (s : Args) (e : Ev) : (emit s e).netParams = s.netParams := rfl

@[simp] theorem emit_best (s : Args) (e : Ev) : (emit s e).best = s.best := rfl

@[simp] theorem emit_ckptStore (s : Args) (e : Ev) : (emit s e).ckptStore = s.ckptStore := rfl

@[simp] theorem emit_running_loss (s : Args) (e : Ev) :
    (emit s e).running_loss = s.running_loss := rfl

@[simp] theorem emit_log_interval (s : Args) (e : Ev) :
    (emit s e).log_interval = s.log_interval := rfl

@[simp] theorem emit_dataloader_size (s : Args) (e : Ev) :
    (emit s e).dataloader_size = s.dataloader_size := rfl

@[simp] theorem emit_optimizer (s : Args) (e : Ev) : (emit s e).optimizer = s.optimizer := rfl

@[simp] theorem emit_epochs (s : Args) (e : Ev) : (emit s e).epochs = s.epochs := rfl

@[simp] theorem emit_accesses (s : Args) (e : Ev) :
    (emit s e).writerAccesses = s.writerAccesses + 1 := rfl

theorem emit_events_some (s : Args) (e : Ev) (h : s.writer = some ()) :
    (emit s e).events = e :: s.events := by
  simp [emit, h]

theorem emit_evExt (s : Args) (e : Ev) (h : e ≠ Ev.closeWriter) : evExt s (emit s e) := by
  cases hw : s.writer with
  | none => exact ⟨[], by simp [emit, hw], by simp⟩
  | some u => exact ⟨[e], by simp [emit, hw], by simpa using Ne.symm h⟩

@[simp] theorem trace_quietView (s : Args) (e : Ev) : quietView (trace s e) = quietView s := rfl

@[simp] theorem trace_modelView (s : Args) (e : Ev) : modelView (trace s e) = modelView s := rfl

@[simp] theorem trace_config (s : Args) (e : Ev) : config (trace s e) = config s := rfl

@[simp] theorem trace_writer (s : Args) (e : Ev) : (trace s e).writer = s.writer := rfl

@[simp] theorem trace_netParams (s : Args) (e : Ev) : (trace s e).netParams = s.netParams := rfl

@[simp] theorem trace_best (s : Args) (e : Ev) : (trace s e).best = s.best := rfl

@[simp] theorem trace_ckptStore (s : Args) (e : Ev) : (trace s e).ckptStore = s.ckptStore := rfl

@[simp] theorem trace_running_loss (s : Args) (e : Ev) :
    (trace s e).running_loss = s.running_loss := rfl

@[simp] theorem trace_log_interval (s : Args) (e : Ev) :
    (trace s e).log_interval = s.log_interval := rfl

@[simp] theorem trace_optimizer (s : Args) (e : Ev) : (trace s e).optimizer = s.optimizer := rfl

@[simp] theorem trace_accesses (s : Args) (e : Ev) :
    (trace s e).writerAccesses = s.writerAccesses := rfl

@[simp] theorem trace_events (s : Args) (e : Ev) : (trace s e).events = e :: s.events := rfl

theorem trace_evExt (s : Args) (e : Ev) (h : e ≠ Ev.closeWriter) : evExt s (trace s e) :=
  ⟨[e], rfl, by simpa using Ne.symm h⟩

@[simp] theorem add_tb_quietView (gs : Nat) (name : String) (s : Args) :
    quietView (add_tensorboard gs name s) = quietView s := by
  simp [add_tensorboard]

@[simp] theorem add_tb_modelView (gs : Nat) (name : String) (s : Args) :
    modelView (add_tensorboard gs name s) = modelView s := by
  simp [add_tensorboard]

@[simp] theorem add_tb_config (gs : Nat) (name : String) (s : Args) :
    config (add_tensorboard gs name s) = config s := by
  simp [add_tensorboard]

@[simp] theorem add_tb_writer (gs : Nat) (name : String) (s : Args) :
    (add_tensorboard gs name s).writer = s.writer := by
  simp [add_tensorboard]

@[simp] theorem add_tb_netParams (gs : Nat) (name : String) (s : Args) :
    (add_tensorboard gs name s).netParams = s.netParams := by
  simp [add_tensorboard]

@[simp] theorem add_tb_best (gs : Nat) (name : String) (s : Args) :
    (add_tensorboard gs name s).best = s.best := by
  simp [add_tensorboard]

@[simp] theorem add_tb_ckptStore (gs : Nat) (name : String) (s : Args) :
    (add_tensorboard gs name s).ckptStore = s.ckptStore := by
  simp [add_tensorboard]

@[simp] theorem add_tb_running_loss (gs : Nat) (name : String) (s : Args) :
    (add_tensorboard gs name s).running_loss = s.running_loss := by
  simp [add_tensorboard]

@[simp] theorem add_tb_log_interval (gs : Nat) (name : String) (s : Args) :
    (add_tensorboard gs name s).log_interval = s.log_interval := by
  simp [add_tensorboard]

@[simp] theorem add_tb_optimizer (gs : Nat) (name : String) (s : Args) :
    (add_tensorboard gs name s).optimizer = s.optimizer := by
  simp [add_tensorboard]

@[simp] theorem add_tb_accesses (gs : Nat) (name : String) (s : Args) :
    (add_tensorboard gs name s).writerAccesses = s.writerAccesses + 4 := by
  simp [add_tensorboard]

theorem add_tb_events_some (gs : Nat) (name : String) (s : Args) (h : s.writer = some ()) :
    (add_tensorboard gs name s).events =
      Ev.image (name ++ "/pred_image") gs :: Ev.image (name ++ "/pred") gs ::
      Ev.image (name ++ "/gt_image") gs :: Ev.image (name ++ "/gt") gs :: s.events := by
  simp [add_tensorboard, emit_events_some, h]

theorem add_tb_evExt (gs : Nat) (name : String) (s : Args) :
    evExt s (add_tensorboard gs name s) := by
  unfold add_tensorboard
  exact evExt_trans (evExt_trans (evExt_trans
    (emit_evExt s _ (by simp))
    (emit_evExt (emit s _) _ (by simp)))
    (emit_evExt (emit (emit s _) _) _ (by simp)))
    (emit_evExt (emit (emit (emit s _) _) _) _ (by simp))

theorem add_tb_gt_mem (gs : Nat) (name : String) (s : Args) (h : s.writer = some ()) :
    Ev.image (name ++ "/gt") gs ∈ (add_tensorboard gs name s).events := by
  rw [add_tb_events_some gs name s h]
  simp

@[simp] theorem pc_quietView (l : ℚ) (gs : Nat) (s : Args) :
    quietView (process_checkpoint l gs s) = quietView s := by
  unfold process_checkpoint
  split <;> rfl

@[simp] theorem pc_config (l : ℚ) (gs : Nat) (s : Args) :
    config (process_checkpoint l gs s) = config s := by
  unfold process_checkpoint
  split <;> rfl

@[simp] theorem pc_writer (l : ℚ) (gs : Nat) (s : Args) :
    (process_checkpoint l gs s).writer = s.writer := by
  unfold process_checkpoint
  split <;> rfl

@[simp] theorem pc_netParams (l : ℚ) (gs : Nat) (s : Args) :
    (process_checkpoint l gs s).netParams = s.netParams := by
  unfold process_checkpoint
  split <;> rfl

@[simp] theorem pc_running_loss (l : ℚ) (gs : Nat) (s : Args) :
    (process_checkpoint l gs s).running_loss = s.running_loss := by
  unfold process_checkpoint
  split <;> rfl

@[simp] theorem pc_optimizer (l : ℚ) (gs : Nat) (s : Args) :
    (process_checkpoint l gs s).optimizer = s.optimizer := by
  unfold process_checkpoint
  split <;> rfl

@[simp] theorem pc_accesses (l : ℚ) (gs : Nat) (s : Args) :
    (process_checkpoint l gs s).writerAccesses = s.writerAccesses := by
  unfold process_checkpoint
  split <;> rfl

theorem pc_best (l : ℚ) (gs : Nat) (s : Args) :
    (process_checkpoint l gs s).best =
      (if ltBest l s.best then BestVal.val l else s.best) := by
  unfold process_checkpoint
  split <;> simp_all

theorem pc_events_len (l : ℚ) (gs : Nat) (s : Args) :
    (process_checkpoint l gs s).events.length =
      s.events.length + (if ltBest l s.best then 1 else 0) := by
  unfold process_checkpoint
  split <;> simp_all

theorem pc_quiet (l : ℚ) (gs : Nat) (s : Args) (h : ltBest l s.best = false) :
    process_checkpoint l gs s = s := by
  simp [process_checkpoint, h]

theorem pc_evExt (l : ℚ) (gs : Nat) (s : Args) : evExt s (process_checkpoint l gs s) := by
  unfold process_checkpoint
  split
  · exact ⟨[Ev.ckptWrite l gs], rfl, by simp⟩
  · exact evExt_refl s

@[simp] theorem rc_quietView (s : Args) : quietView (restore_checkpoint s) = quietView s := by
  unfold restore_checkpoint
  split <;> rfl

@[simp] theorem rc_config (s : Args) : config (restore_checkpoint s) = config s := by
  unfold restore_checkpoint
  split <;> rfl

@[simp] theorem rc_events (s : Args) : (restore_checkpoint s).events = s.events := by
  unfold restore_checkpoint
  split <;> rfl

@[simp] theorem rc_accesses (s : Args) :
    (restore_checkpoint s).writerAccesses = s.writerAccesses := by
  unfold restore_checkpoint
  split <;> rfl

theorem rc_evExt (s : Args) : evExt s (restore_checkpoint s) :=
  ⟨[], by simp, by simp⟩

@[simp] theorem so_quietView (s : Args) : quietView (setOptimizer s) = quietView s := by
  unfold setOptimizer
  split <;> rfl

@[simp] theorem so_config (s : Args) : config (setOptimizer s) = config s := by
  unfold setOptimizer
  split <;> rfl

@[simp] theorem so_events (s : Args) : (setOptimizer s).events = s.events := by
  unfold setOptimizer
  split <;> rfl

@[simp] theorem so_accesses (s : Args) :
    (setOptimizer s).writerAccesses = s.writerAccesses := by
  unfold setOptimizer
  split <;> rfl

theorem so_evExt (s : Args) : evExt s (setOptimizer s) :=
  ⟨[], by simp, by simp⟩

theorem validateLoop_tail (fw : List ℚ → Tensor → Tensor) (gs : Nat) :
    ∀ (bs : List Batch) (idx : Nat) (s : Args), 2 ≤ idx →
      validateLoop fw gs idx bs s = (s, validLossSum fw s.netParams bs) := by
  intro bs
  induction bs with
  | nil =>
    intro idx s h
    simp [validateLoop, validLossSum]
  | cons b rest ih =>
    intro idx s h
    have hne : ¬ idx = 1 := by omega
    simp only [validateLoop, if_neg hne, ih (idx + 1) s (by omega)]
    simp [validLossSum]

theorem validateLoop_head (fw : List ℚ → Tensor → Tensor) (gs : Nat)
    (b : Batch) (rest : List Batch) (s : Args) :
    validateLoop fw gs 1 (b :: rest) s =
      (add_tensorboard gs "Valid" s, validLossSum fw s.netParams (b :: rest)) := by
  have h2 := validateLoop_tail fw gs rest 2 (add_tensorboard gs "Valid" s) (by omega)
  simp [validateLoop, h2, validLossSum]

theorem validateLoop_nil (fw : List ℚ → Tensor → Tensor) (gs : Nat) (s : Args) :
    validateLoop fw gs 1 [] s = (s, 0) := rfl

theorem validate_loss (fw : List ℚ → Tensor → Tensor) (vb : List Batch)
    (li : Bool) (gs : Nat) (s : Args) :
    (validate fw vb li gs s).2 =
      validLossSum fw s.netParams vb / (vb.length : ℚ) := by
  cases vb with
  | nil =>
    cases li <;> simp [validate, validateLoop_nil, validLossSum]
  | cons b rest =>
    simp only [validate]
    rw [validateLoop_head]
    cases li <;> simp

theorem validate_modelView (fw : List ℚ → Tensor → Tensor) (vb : List Batch)
    (li : Bool) (gs : Nat) (s : Args) :
    modelView (validate fw vb li gs s).1 = modelView s := by
  cases vb with
  | nil =>
    cases li <;> simp [validate, validateLoop_nil]
  | cons b rest =>
    simp only [validate]
    rw [validateLoop_head]
    cases li <;> simp

theorem validate_quietView (fw : List ℚ → Tensor → Tensor) (vb : List Batch)
    (li : Bool) (gs : Nat) (s : Args) :
    quietView (validate fw vb li gs s).1 = quietView s := by
  cases vb with
  | nil =>
    cases li <;> simp [validate, validateLoop_nil]
  | cons b rest =>
    simp only [validate]
    rw [validateLoop_head]
    cases li <;> simp

theorem validate_netParams (fw : List ℚ → Tensor → Tensor) (vb : List Batch)
    (li : Bool) (gs : Nat) (s : Args) :
    (validate fw vb li gs s).1.netParams = s.netParams :=
  congrArg (fun p => p.1) (validate_modelView fw vb li gs s)

theorem validate_best (fw : List ℚ → Tensor → Tensor) (vb : List Batch)
    (li : Bool) (gs : Nat) (s : Args) :
    (validate fw vb li gs s).1.best = s.best :=
  congrArg (fun p => p.2.1) (validate_modelView fw vb li gs s)

theorem validate_ckptStore (fw : List ℚ → Tensor → Tensor) (vb : List Batch)
    (li : Bool) (gs : Nat) (s : Args) :
    (validate fw vb li gs s).1.ckptStore = s.ckptStore :=
  congrArg (fun p => p.2.2) (validate_modelView fw vb li gs s)

theorem validate_writer (fw : List ℚ → Tensor → Tensor) (vb : List Batch)
    (li : Bool) (gs : Nat) (s : Args) :
    (validate fw vb li gs s).1.writer = s.writer :=
  congrArg (fun p => p.2.2.1) (validate_quietView fw vb li gs s)

theorem validate_running_loss (fw : List ℚ → Tensor → Tensor) (vb : List Batch)
    (li : Bool) (gs : Nat) (s : Args) :
    (validate fw vb li gs s).1.running_loss = s.running_loss := by
  cases vb with
  | nil =>
    cases li <;> simp [validate, validateLoop_nil]
  | cons b rest =>
    simp only [validate]
    rw [validateLoop_head]
    cases li <;> simp

theorem validate_evExt_validRun (fw : List ℚ → Tensor → Tensor) (vb : List Batch)
    (li : Bool) (gs : Nat) (s : Args) :
    ∃ d, (validate fw vb li gs s).1.events = d ++ Ev.validRun gs :: s.events ∧
      Ev.closeWriter ∉ d := by
  have hbase : evExt (trace s (Ev.validRun gs)) (validate fw vb li gs s).1 := by
    cases vb with
    | nil =>
      cases li with
      | false => exact evExt_refl _
      | true =>
        simp only [validate]
        rw [validateLoop_nil]
        exact emit_evExt _ _ (by simp)
    | cons b rest =>
      simp only [validate]
      rw [validateLoop_head]
      cases li with
      | false => exact add_tb_evExt _ _ _
      | true =>
        exact evExt_trans (add_tb_evExt gs "Valid" (trace s (Ev.validRun gs)))
          (emit_evExt _ _ (by simp))
  obtain ⟨d, hd, hn⟩ := hbase
  exact ⟨d, by rw [hd, trace_events], hn⟩

theorem validate_evExt (fw : List ℚ → Tensor → Tensor) (vb : List Batch)
    (li : Bool) (gs : Nat) (s : Args) :
    evExt s (validate fw vb li gs s).1 := by
  obtain ⟨d, hd, hn⟩ := validate_evExt_validRun fw vb li gs s
  refine ⟨d ++ [Ev.validRun gs], ?_, ?_⟩
  · rw [hd]
    simp
  · intro hmem
    rcases List.mem_append.mp hmem with h | h
    · exact hn h
    · simp at h

theorem validate_validRun_mem (fw : List ℚ → Tensor → Tensor) (vb : List Batch)
    (li : Bool) (gs : Nat) (s : Args) :
    Ev.validRun gs ∈ (validate fw vb li gs s).1.events := by
  obtain ⟨d, hd, _⟩ := validate_evExt_validRun fw vb li gs s
  rw [hd]
  simp

theorem validate_accesses_le (fw : List ℚ → Tensor → Tensor) (vb : List Batch)
    (li : Bool) (gs : Nat) (s : Args) :
    s.writerAccesses ≤ (validate fw vb li gs s).1.writerAccesses := by
  cases vb with
  | nil =>
    cases li <;> simp [validate, validateLoop_nil]
  | cons b rest =>
    simp only [validate]
    rw [validateLoop_head]
    cases li <;> simp <;> omega

theorem quietView_update1 (X : Args) (a : ℚ) :
    quietView { X with running_loss := a } = quietView X := rfl

theorem quietView_update2 (X : Args) (a b : ℚ) :
    quietView { X with running_loss := a, train_loss := b } = quietView X := rfl

theorem bs_quietView (fw : List ℚ → Tensor → Tensor) (batch_idx epoch : Nat)
    (vb : List Batch) (loss : ℚ) (s : Args) :
    quietView (batch_status fw batch_idx epoch vb loss s) = quietView s := by
  simp only [batch_status, emit_quietView]
  split
  · simp only [quietView_update1, trace_quietView, pc_quietView, add_tb_quietView,
      validate_quietView, emit_quietView, quietView_update2]
  · simp only [emit_quietView, quietView_update2]

theorem bs_evExt (fw : List ℚ → Tensor → Tensor) (batch_idx epoch : Nat)
    (vb : List Batch) (loss : ℚ) (s : Args) :
    evExt s (batch_status fw batch_idx epoch vb loss s) := by
  simp only [batch_status]
  refine evExt_trans (t := if global_step batch_idx s.dataloader_size epoch %
      s.log_interval = 0 then _ else _) ?_ (emit_evExt _ _ (by simp))
  split
  · refine evExt_trans (t := emit { s with
      running_loss := s.running_loss + loss,
      train_loss := s.train_loss + loss } (Ev.scalar "Train/loss" loss
        (global_step batch_idx s.dataloader_size epoch))) ?_ ?_
    · exact emit_evExt _ _ (by simp)
    · refine evExt_trans ?_ (⟨[Ev.console epoch batch_idx], rfl, by simp⟩ : evExt _ _)
      exact evExt_trans (evExt_trans (validate_evExt _ _ _ _ _)
        (add_tb_evExt _ _ _)) (pc_evExt _ _ _)
  · exact emit_evExt _ _ (by simp)

theorem bs_accesses_lt (fw : List ℚ → Tensor → Tensor) (batch_idx epoch : Nat)
    (vb : List Batch) (loss : ℚ) (s : Args) :
    s.writerAccesses < (batch_status fw batch_idx epoch vb loss s).writerAccesses := by
  simp only [batch_status, emit_accesses]
  split
  · have h1 := validate_accesses_le fw vb true
      (global_step batch_idx s.dataloader_size epoch)
      (emit { s with running_loss := s.running_loss + loss,
                     train_loss := s.train_loss + loss }
        (Ev.scalar "Train/loss" loss (global_step batch_idx s.dataloader_size epoch)))
    simp only [emit_accesses] at h1
    simp
    omega
  · simp
    omega

theorem quietView_update_netParams (X : Args) (p : List ℚ) :
    quietView { X with netParams := p } = quietView X := rfl

theorem quietView_update_losses (X : Args) (a b c : ℚ) :
    quietView { X with train_loss := a, train_acc := b, running_loss := c } =
      quietView X := rfl

theorem quietView_update_best (X : Args) (b : BestVal) :
    quietView { X with best := b } = quietView X := rfl

theorem quietView_update_dls (X : Args) (n : Nat) :
    quietView { X with dataloader_size := n } = quietView X := rfl

theorem tbs_quietView (fw : List ℚ → Tensor → Tensor)
    (ou : List ℚ → Batch → List ℚ) (epoch : Nat) (vb : List Batch)
    (batch_idx : Nat) (b : Batch) (s : Args) :
    quietView (trainBatchStep fw ou epoch vb batch_idx b s) = quietView s := by
  simp only [trainBatchStep]
  rw [bs_quietView]
  exact quietView_update_netParams s _

theorem tbs_evExt (fw : List ℚ → Tensor → Tensor)
    (ou : List ℚ → Batch → List ℚ) (epoch : Nat) (vb : List Batch)
    (batch_idx : Nat) (b : Batch) (s : Args) :
    evExt s (trainBatchStep fw ou epoch vb batch_idx b s) := by
  simp only [trainBatchStep]
  exact bs_evExt fw batch_idx epoch vb _ { s with netParams := ou s.netParams b }

theorem trainBatches_quietView (fw : List ℚ → Tensor → Tensor)
    (ou : List ℚ → Batch → List ℚ) (epoch : Nat) (vb : List Batch) :
    ∀ (tb : List Batch) (batch_idx : Nat) (s : Args),
      quietView (trainBatches fw ou epoch vb batch_idx tb s) = quietView s := by
  intro tb
  induction tb with
  | nil => intro batch_idx s; rfl
  | cons b rest ih =>
    intro batch_idx s
    simp only [trainBatches]
    rw [ih]
    exact tbs_quietView fw ou epoch vb batch_idx b s

theorem trainBatches_evExt (fw : List ℚ → Tensor → Tensor)
    (ou : List ℚ → Batch → List ℚ) (epoch : Nat) (vb : List Batch) :
    ∀ (tb : List Batch) (batch_idx : Nat) (s : Args),
      evExt s (trainBatches fw ou epoch vb batch_idx tb s) := by
  intro tb
  induction tb with
  | nil => intro batch_idx s; exact evExt_refl s
  | cons b rest ih =>
    intro batch_idx s
    simp only [trainBatches]
    exact evExt_trans (tbs_evExt fw ou epoch vb batch_idx b s) (ih _ _)

theorem trainEpoch_quietView (fw : List ℚ → Tensor → Tensor)
    (ou : List ℚ → Batch → List ℚ) (tb vb : List Batch) (epoch : Nat) (s : Args) :
    quietView (trainEpoch fw ou tb vb epoch s) = quietView s := by
  simp only [trainEpoch]
  rw [trainBatches_quietView]
  exact quietView_update_losses s _ _ _

theorem trainEpoch_evExt (fw : List ℚ → Tensor → Tensor)
    (ou : List ℚ → Batch → List ℚ) (tb vb : List Batch) (epoch : Nat) (s : Args) :
    evExt s (trainEpoch fw ou tb vb epoch s) := by
  simp only [trainEpoch]
  exact trainBatches_evExt fw ou epoch vb tb 1
    { s with train_loss := 0, train_acc := 0, running_loss := 0 }

theorem trainEpochsFrom_quietView (fw : List ℚ → Tensor → Tensor)
    (ou : List ℚ → Batch → List ℚ) (tb vb : List Batch) :
    ∀ (n e : Nat) (s : Args),
      quietView (trainEpochsFrom fw ou tb vb e n s) = quietView s := by
  intro n
  induction n with
  | zero => intro e s; rfl
  | succ m ih =>
    intro e s
    simp only [trainEpochsFrom]
    rw [ih]
    exact trainEpoch_quietView fw ou tb vb e s

theorem trainEpochsFrom_evExt (fw : List ℚ → Tensor → Tensor)
    (ou : List ℚ → Batch → List ℚ) (tb vb : List Batch) :
    ∀ (n e : Nat) (s : Args), evExt s (trainEpochsFrom fw ou tb vb e n s) := by
  intro n
  induction n with
  | zero => intro e s; exact evExt_refl s
  | succ m ih =>
    intro e s
    simp only [trainEpochsFrom]
    exact evExt_trans (trainEpoch_evExt fw ou tb vb e s) (ih _ _)

theorem trainInit_quietView (tb : List Batch) (s : Args) :
    quietView (trainInit tb s) = quietView s := by
  simp only [trainInit]
  rw [quietView_update_best, rc_quietView, so_quietView]
  split
  · rw [emit_quietView]
    exact quietView_update_dls s _
  · exact quietView_update_dls s _

theorem trainInit_evExt (tb : List Batch) (s : Args) : evExt s (trainInit tb s) := by
  simp only [trainInit]
  have h1 : evExt { s with dataloader_size := tb.length }
      (if truthy (Args.plot { s with dataloader_size := tb.length }) then
        emit { s with dataloader_size := tb.length } (Ev.image "Sample" 0)
      else { s with dataloader_size := tb.length }) := by
    split
    · exact emit_evExt _ _ (by simp)
    · exact evExt_refl _
  have h2 := evExt_trans h1 (so_evExt _)
  have h3 := evExt_trans h2 (rc_evExt _)
  obtain ⟨d, hd, hn⟩ := h3
  exact ⟨d, hd, hn⟩

theorem train_quietView (fw : List ℚ → Tensor → Tensor)
    (ou : List ℚ → Batch → List ℚ) (tb vb : List Batch) (s : Args) :
    quietView (train fw ou tb vb s) = quietView s := by
  simp only [train]
  rw [trainEpochsFrom_quietView]
  exact trainInit_quietView tb s

theorem train_evExt (fw : List ℚ → Tensor → Tensor)
    (ou : List ℚ → Batch → List ℚ) (tb vb : List Batch) (s : Args) :
    evExt s (train fw ou tb vb s) := by
  simp only [train]
  exact evExt_trans (trainInit_evExt tb s) (trainEpochsFrom_evExt fw ou tb vb _ _ _)

theorem pt_state (fwc : List ℚ → CTensor → CTensor) (pb : List PBatch) (s : Args) :
    (predict_test fwc pb s).1 = restore_checkpoint s := rfl

theorem config_of_quietView {s t : Args} (h : quietView s = quietView t) :
    config s = config t :=
  congrArg Prod.fst h

theorem predict_of_quietView {s t : Args} (h : quietView s = quietView t) :
    s.predict = t.predict :=
  congrArg (fun p => p.2.1.1) h

theorem writer_of_quietView {s t : Args} (h : quietView s = quietView t) :
    s.writer = t.writer :=
  congrArg (fun p => p.2.2.1) h

theorem ms_device (c : Bool) (s : Args) :
    (mainSetup c s).device = resolveDevice s.device c := by
  simp only [mainSetup, read_checkpoint]
  split <;> split <;> rfl

theorem ms_events (c : Bool) (s : Args) : (mainSetup c s).events = s.events := by
  simp only [mainSetup, read_checkpoint]
  split <;> split <;> rfl

theorem ms_predict (c : Bool) (s : Args) : (mainSetup c s).predict = s.predict := by
  simp only [mainSetup, read_checkpoint]
  split <;> split <;> rfl

theorem ms_writer (c : Bool) (s : Args) (p : Bool) (h : s.predict = storeTrueParse p) :
    (mainSetup c s).writer = s.writer := by
  simp only [mainSetup, read_checkpoint]
  have hpred : ∀ X : Args, X.predict = some p → X.predict.isNone = false := by
    intro X hX
    rw [hX]
    rfl
  split
  · split
    · rename_i h1 h2
      rw [hpred _ (by simpa [storeTrueParse] using h)] at h2
      cases h2
    · rfl
  · split
    · rename_i h1 h2
      rw [hpred _ (by simpa [storeTrueParse] using h)] at h2
      cases h2
    · rfl

theorem globalStepAt_succ (len k : Nat) : globalStepAt len k = k + 1 := by
  unfold globalStepAt global_step batchIdxAt epochAt
  have h := Nat.mod_add_div k len
  omega

/-- C1: the claim states that after restoring a checkpoint at startup the
training loop's best-loss value and step counter equal the saved values.  The
spec-modelled `restore_checkpoint` does set `args.best` to the saved best
loss, but `train` then unconditionally executes `args.best = float('inf')`
(train.py line 180), so the best loss a resumed run starts from is infinity,
never the saved value; and the first global step of the resumed loop is 1
(epoch 0, batch 1) regardless of the saved step. -/
theorem C1_restore_best_discarded (tb : List Batch) (s : Args) (c : Checkpoint)
    (h : s.ckptStore = some c) :
    (restore_checkpoint s).best = BestVal.val c.bestLoss ∧
    (trainInit tb s).best = BestVal.inf ∧
    (trainInit tb s).best ≠ BestVal.val c.bestLoss ∧
    globalStepAt tb.length 0 = 1 := by
  refine ⟨?_, rfl, ?_, globalStepAt_succ tb.length 0⟩
  · simp [restore_checkpoint, h]
  · rw [show (trainInit tb s).best = BestVal.inf from rfl]
    simp

/-- Witness for C1 at a concrete resumed run: the stored checkpoint carries
best loss 1/2, yet training starts from best = infinity. -/
theorem C1_restore_best_discarded_witness :
    (restore_checkpoint argsResume).best = BestVal.val ckptHalf.bestLoss ∧
    (trainInit sevenBatches argsResume).best = BestVal.inf ∧
    (trainInit sevenBatches argsResume).best ≠ BestVal.val ckptHalf.bestLoss ∧
    globalStepAt sevenBatches.length 0 = 1 :=
  C1_restore_best_discarded sevenBatches argsResume ckptHalf rfl

/-- C2 counterexample: the claim says the global step uses a 0-indexed batch
index, so that with 7 batches per epoch the last batch of epoch 0 is logged
at global step 6.  The loop enumerates batches from 1
(`enumerate(train_loader, 1)`), so a concrete one-epoch run over 7 batches
logs `Train/loss` at steps 1..7 and the last batch of epoch 0 lands on
global step 7, not the spec's 6. -/
theorem C2_global_step_not_zero_indexed :
    trainLossSteps (train fw0 ou0 sevenBatches [] args0e1).events =
      [7, 6, 5, 4, 3, 2, 1] ∧
    globalStepAt 7 6 = 7 ∧
    specGlobalStep 6 0 7 = 6 ∧
    globalStepAt 7 6 ≠ specGlobalStep 6 0 7 := by
  refine ⟨by decide, by decide, by decide, by decide⟩

/-- C2 amended: the batch index in `global_step` is 1-indexed, so the global
step at the k-th batch processed in the run (k counted from 0) is k + 1: it
is strictly increasing within a run and matches the code's formula
`batch_idx + batches_per_epoch * epoch` with `batch_idx` running 1..B. -/
theorem C2_global_step_one_indexed (len k : Nat) :
    globalStepAt len k = k + 1 ∧
    globalStepAt len k < globalStepAt len (k + 1) ∧
    globalStepAt len k = global_step (batchIdxAt len k) len (epochAt len k) := by
  refine ⟨globalStepAt_succ len k, ?_, rfl⟩
  rw [globalStepAt_succ len k, globalStepAt_succ len (k + 1)]
  omega

/-- C3: a checkpoint is written if and only if the just-observed loss is
strictly below the recorded best, the best is updated exactly on a write, and
on no improvement the state is untouched; on the spec's example sequence
[0.50, 0.40, 0.45, 0.30] (written as `mkRat`, i.e. 1/2, 2/5, 9/20, 3/10)
writes happen after 0.50, 0.40 and 0.30 only (the trace is newest-first)
and the final best is 0.30. -/
theorem C3_checkpoint_write_iff_improvement :
    (∀ (loss : ℚ) (gs : Nat) (s : Args),
      (process_checkpoint loss gs s).best =
        (if ltBest loss s.best then BestVal.val loss else s.best) ∧
      (process_checkpoint loss gs s).events.length =
        s.events.length + (if ltBest loss s.best then 1 else 0) ∧
      (ltBest loss s.best = false → process_checkpoint loss gs s = s)) ∧
    ckptWrites (ckptFold [mkRat 1 2, mkRat 2 5, mkRat 9 20, mkRat 3 10]
        args0).events =
      [mkRat 3 10, mkRat 2 5, mkRat 1 2] ∧
    (ckptFold [mkRat 1 2, mkRat 2 5, mkRat 9 20, mkRat 3 10] args0).best =
      BestVal.val (mkRat 3 10) := by
  refine ⟨fun loss gs s => ⟨pc_best loss gs s, pc_events_len loss gs s,
    fun h => pc_quiet loss gs s h⟩, by decide, by decide⟩

/-- Witness for C3: at loss 0.45 against best 0.40, no write occurs and the
state is unchanged. -/
theorem C3_checkpoint_write_iff_improvement_witness :
    process_checkpoint (mkRat 9 20) 0 { args0 with best := BestVal.val (mkRat 2 5) } =
      { args0 with best := BestVal.val (mkRat 2 5) } :=
  (C3_checkpoint_write_iff_improvement.1 (mkRat 9 20) 0
    { args0 with best := BestVal.val (mkRat 2 5) }).2.2 (by decide)

theorem emit_mem (s : Args) {e : Ev} (e' : Ev) (h : e ∈ s.events) :
    e ∈ (emit s e').events := by
  unfold emit
  cases hw : s.writer <;> simp [hw, h]

theorem trace_mem (s : Args) {e : Ev} (e' : Ev) (h : e ∈ s.events) :
    e ∈ (trace s e').events :=
  List.mem_cons_of_mem e' h

theorem upd2_log_interval (X : Args) (a b : ℚ) :
    ({ X with running_loss := a, train_loss := b } : Args).log_interval =
      X.log_interval := rfl

theorem upd2_best (X : Args) (a b : ℚ) :
    ({ X with running_loss := a, train_loss := b } : Args).best = X.best := rfl

theorem upd2_writer (X : Args) (a b : ℚ) :
    ({ X with running_loss := a, train_loss := b } : Args).writer = X.writer := rfl

theorem upd2_ckptStore (X : Args) (a b : ℚ) :
    ({ X with running_loss := a, train_loss := b } : Args).ckptStore =
      X.ckptStore := rfl

theorem upd1_events (X : Args) (a : ℚ) :
    ({ X with running_loss := a } : Args).events = X.events := rfl

theorem upd1_writer (X : Args) (a : ℚ) :
    ({ X with running_loss := a } : Args).writer = X.writer := rfl

theorem upd1_best (X : Args) (a : ℚ) :
    ({ X with running_loss := a } : Args).best = X.best := rfl

theorem batch_status_quiet (fw : List ℚ → Tensor → Tensor) (batch_idx epoch : Nat)
    (vb : List Batch) (loss : ℚ) (s : Args)
    (h : ¬ global_step batch_idx s.dataloader_size epoch % s.log_interval = 0) :
    batch_status fw batch_idx epoch vb loss s =
      emit (emit { s with running_loss := s.running_loss + loss,
                          train_loss := s.train_loss + loss }
        (Ev.scalar "Train/loss" loss
          (global_step batch_idx s.dataloader_size epoch))) Ev.flushEv := by
  simp only [batch_status, emit_log_interval, upd2_log_interval]
  rw [if_neg h]

theorem batch_status_fire (fw : List ℚ → Tensor → Tensor) (batch_idx epoch : Nat)
    (vb : List Batch) (loss : ℚ) (s : Args)
    (h : global_step batch_idx s.dataloader_size epoch % s.log_interval = 0) :
    batch_status fw batch_idx epoch vb loss s =
      emit { trace (process_checkpoint loss
          (global_step batch_idx s.dataloader_size epoch)
          (add_tensorboard (global_step batch_idx s.dataloader_size epoch) "Train"
            (validate fw vb true (global_step batch_idx s.dataloader_size epoch)
              (emit { s with running_loss := s.running_loss + loss,
                             train_loss := s.train_loss + loss }
                (Ev.scalar "Train/loss" loss
                  (global_step batch_idx s.dataloader_size epoch)))).1))
          (Ev.console epoch batch_idx) with running_loss := 0 } Ev.flushEv := by
  simp only [batch_status, emit_log_interval, upd2_log_interval]
  rw [if_pos h]

theorem validate_optimizer (fw : List ℚ → Tensor → Tensor) (vb : List Batch)
    (li : Bool) (gs : Nat) (s : Args) :
    (validate fw vb li gs s).1.optimizer = s.optimizer := by
  cases vb with
  | nil =>
    cases li <;> simp [validate, validateLoop_nil]
  | cons b rest =>
    simp only [validate]
    rw [validateLoop_head]
    cases li <;> simp

theorem predictLoop_processed (fwc : List ℚ → CTensor → CTensor) (params : List ℚ) :
    ∀ (bs : List PBatch) (idx : Nat), idx ≤ 10 →
      (predictLoop fwc params idx bs).1 =
        (bs.take (11 - idx)).map (predictBatch fwc params) := by
  intro bs
  induction bs with
  | nil =>
    intro idx h
    simp [predictLoop]
  | cons b rest ih =>
    intro idx h
    by_cases hlt : idx < 10
    · have h11 : 11 - idx = (11 - (idx + 1)) + 1 := by omega
      simp [predictLoop, hlt, ih (idx + 1) (by omega), h11]
    · have h10 : idx = 10 := by omega
      subst h10
      simp [predictLoop]

/-- C6: `validate` is side-effect-free on model parameters and, aside from
logging, a function of (model, partition): it leaves `netParams` unchanged,
and calling it again on its own output state (no intervening training)
returns the same mean loss. -/
theorem C6_validate_pure (fw : List ℚ → Tensor → Tensor) (vb : List Batch)
    (li : Bool) (gs : Nat) (s : Args) :
    (validate fw vb li gs s).1.netParams = s.netParams ∧
    (validate fw vb li gs (validate fw vb li gs s).1).2 =
      (validate fw vb li gs s).2 := by
  refine ⟨validate_netParams fw vb li gs s, ?_⟩
  rw [validate_loss fw vb li gs ((validate fw vb li gs s).1),
    validate_netParams fw vb li gs s, validate_loss fw vb li gs s]

/-- C7 counterexample: the claim says the inference loop processes exactly
the first 9 leading batches; on a 12-batch test partition the loop fully
processes 10 batches (the `if batch_idx < 10: pass else: break` bound is
consulted only after the batch has been processed), not 9. -/
theorem C7_nine_batch_counterexample :
    (predict_test fwc0 twelveBatches args0).2.length = 10 ∧
    (predict_test fwc0 twelveBatches args0).2.length ≠ 9 := by
  refine ⟨by decide, by decide⟩

/-- C7 amended: the inference loop processes exactly the first min(10, n)
batches of the test partition — forward passes only, no parameter update —
and for each processed batch extracts, per channel, the 2-D argmax
coordinate of the input tensor and of the predicted heatmaps. -/
theorem C7_first_ten_batches (fwc : List ℚ → CTensor → CTensor)
    (tb : List PBatch) (s : Args) :
    (predict_test fwc tb s).2 =
      (tb.take 10).map (predictBatch fwc (restore_checkpoint s).netParams) ∧
    (predict_test fwc tb s).2.length = min 10 tb.length ∧
    (predict_test fwc tb s).1 = restore_checkpoint s := by
  have h := predictLoop_processed fwc (restore_checkpoint s).netParams tb 1 (by omega)
  have h2 : (predict_test fwc tb s).2 =
      (tb.take 10).map (predictBatch fwc (restore_checkpoint s).netParams) := by
    simpa [predict_test] using h
  refine ⟨h2, ?_, rfl⟩
  rw [h2]
  simp

/-- C8 counterexample: the claim says no operation of the training loop
changes any configuration field after creation; `train` rebinds the
optimizer field (the parsed kind string) to the constructed optimizer
object. -/
theorem C8_optimizer_field_rebound :
    args0.optimizer = OptimizerField.kind "adam" ∧
    (train fw0 ou0 sevenBatches [] args0).optimizer ≠ OptimizerField.kind "adam" ∧
    (train fw0 ou0 sevenBatches [] args0).optimizer =
      OptimizerField.inst ⟨"adam", args0.learning_rate⟩ := by
  refine ⟨rfl, by decide, by decide⟩

/-- C8 amended: every configuration field the spec lists except the
optimizer field (batch size, epochs, learning rate, image shape, sigma,
device, dataset/network identifiers, checkpoint path, run name) is left
unchanged by the training, validation and inference loops; the training
loop rebinds the optimizer field to the constructed optimizer object (and
checkpoint restoration may rebind it again). -/
theorem C8_config_read_only_except_optimizer (fw : List ℚ → Tensor → Tensor)
    (ou : List ℚ → Batch → List ℚ) (fwc : List ℚ → CTensor → CTensor)
    (tb vb : List Batch) (pb : List PBatch) (li : Bool) (gs : Nat) (s : Args) :
    config (train fw ou tb vb s) = config s ∧
    config (validate fw vb li gs s).1 = config s ∧
    (validate fw vb li gs s).1.optimizer = s.optimizer ∧
    config (predict_test fwc pb s).1 = config s := by
  refine ⟨config_of_quietView (train_quietView fw ou tb vb s),
    config_of_quietView (validate_quietView fw vb li gs s),
    validate_optimizer fw vb li gs s, ?_⟩
  rw [pt_state]
  exact rc_config s

/-- C4: the interval actions of `batch_status` — a full validation pass, the
four-way train visualization, checkpoint evaluation, the console progress
print, and resetting the running-interval accumulator to zero — fire exactly
when the global step is a multiple of `log_interval`: at a firing step the
post-state shows all five effects; at any other step the trace grows by
exactly the per-step scalar and the flush, the accumulator keeps
accumulating, and best/checkpoint state are untouched. -/
theorem C4_interval_policy (fw : List ℚ → Tensor → Tensor) (batch_idx epoch : Nat)
    (vb : List Batch) (loss : ℚ) (s : Args) (hw : s.writer = some ()) :
    (global_step batch_idx s.dataloader_size epoch % s.log_interval = 0 →
      (batch_status fw batch_idx epoch vb loss s).running_loss = 0 ∧
      Ev.validRun (global_step batch_idx s.dataloader_size epoch) ∈
        (batch_status fw batch_idx epoch vb loss s).events ∧
      Ev.console epoch batch_idx ∈
        (batch_status fw batch_idx epoch vb loss s).events ∧
      Ev.image ("Train" ++ "/gt") (global_step batch_idx s.dataloader_size epoch) ∈
        (batch_status fw batch_idx epoch vb loss s).events ∧
      (batch_status fw batch_idx epoch vb loss s).best =
        (if ltBest loss s.best then BestVal.val loss else s.best)) ∧
    (¬ global_step batch_idx s.dataloader_size epoch % s.log_interval = 0 →
      (batch_status fw batch_idx epoch vb loss s).events =
        Ev.flushEv :: Ev.scalar "Train/loss" loss
          (global_step batch_idx s.dataloader_size epoch) :: s.events ∧
      (batch_status fw batch_idx epoch vb loss s).running_loss =
        s.running_loss + loss ∧
      (batch_status fw batch_idx epoch vb loss s).best = s.best ∧
      (batch_status fw batch_idx epoch vb loss s).ckptStore = s.ckptStore) := by
  constructor
  · intro h
    rw [batch_status_fire fw batch_idx epoch vb loss s h]
    have hw1 : ({ s with running_loss := s.running_loss + loss,
                          train_loss := s.train_loss + loss } : Args).writer =
        some () := by
      rw [upd2_writer]
      exact hw
    have hw2 : (emit { s with running_loss := s.running_loss + loss,
                              train_loss := s.train_loss + loss }
        (Ev.scalar "Train/loss" loss
          (global_step batch_idx s.dataloader_size epoch))).writer = some () := by
      rw [emit_writer]
      exact hw1
    have hw3 : (validate fw vb true (global_step batch_idx s.dataloader_size epoch)
        (emit { s with running_loss := s.running_loss + loss,
                       train_loss := s.train_loss + loss }
          (Ev.scalar "Train/loss" loss
            (global_step batch_idx s.dataloader_size epoch)))).1.writer =
        some () := by
      rw [validate_writer]
      exact hw2
    refine ⟨rfl, ?_, ?_, ?_, ?_⟩
    · -- validation pass ran
      obtain ⟨d, hd, _⟩ := validate_evExt_validRun fw vb true
        (global_step batch_idx s.dataloader_size epoch)
        (emit { s with running_loss := s.running_loss + loss,
                       train_loss := s.train_loss + loss }
          (Ev.scalar "Train/loss" loss
            (global_step batch_idx s.dataloader_size epoch)))
      refine emit_mem _ _ ?_
      rw [upd1_events]
      refine trace_mem _ _ ?_
      refine evExt_mem (pc_evExt _ _ _) ?_
      refine evExt_mem (add_tb_evExt _ _ _) ?_
      rw [hd]
      exact List.mem_append_right d (List.mem_cons_self _ _)
    · -- progress print happened
      refine emit_mem _ _ ?_
      rw [upd1_events, trace_events]
      exact List.mem_cons_self _ _
    · -- train visualization happened
      refine emit_mem _ _ ?_
      rw [upd1_events]
      refine trace_mem _ _ ?_
      refine evExt_mem (pc_evExt _ _ _) ?_
      exact add_tb_gt_mem _ "Train" _ hw3
    · -- checkpoint policy evaluated against the pre-step best
      rw [emit_best, upd1_best, trace_best, pc_best, add_tb_best, validate_best,
        emit_best, upd2_best]
  · intro h
    rw [batch_status_quiet fw batch_idx epoch vb loss s h]
    have hw1 : ({ s with running_loss := s.running_loss + loss,
                          train_loss := s.train_loss + loss } : Args).writer =
        some () := by
      rw [upd2_writer]
      exact hw
    refine ⟨?_, rfl, rfl, rfl⟩
    rw [emit_events_some _ _ (by rw [emit_writer]; exact hw1),
      emit_events_some _ _ hw1]

/-- Witness for C4 at log_interval 50: global step 50 fires all interval
actions; global step 49 adds exactly the scalar and the flush and leaves
accumulator, best and checkpoint store untouched. -/
theorem C4_interval_policy_witness :
    ((batch_status fw0 50 0 [] 0 args0w).running_loss = 0 ∧
      Ev.validRun 50 ∈ (batch_status fw0 50 0 [] 0 args0w).events ∧
      Ev.console 0 50 ∈ (batch_status fw0 50 0 [] 0 args0w).events ∧
      Ev.image ("Train" ++ "/gt") 50 ∈ (batch_status fw0 50 0 [] 0 args0w).events ∧
      (batch_status fw0 50 0 [] 0 args0w).best =
        (if ltBest 0 args0w.best then BestVal.val 0 else args0w.best)) ∧
    ((batch_status fw0 49 0 [] 0 args0w).events =
        Ev.flushEv :: Ev.scalar "Train/loss" 0 49 :: args0w.events ∧
      (batch_status fw0 49 0 [] 0 args0w).running_loss =
        args0w.running_loss + 0 ∧
      (batch_status fw0 49 0 [] 0 args0w).best = args0w.best ∧
      (batch_status fw0 49 0 [] 0 args0w).ckptStore = args0w.ckptStore) :=
  ⟨(C4_interval_policy fw0 50 0 [] 0 args0w rfl).1 (by decide),
   (C4_interval_policy fw0 49 0 [] 0 args0w rfl).2 (by decide)⟩

/-- C5: on a nonempty validation partition, `validate` runs one full pass
(every batch's MSE contributes to the accumulator, no parameter update),
returns the arithmetic mean of the per-batch losses over the number of
batches, and emits the four-way visualization grid under the `Valid`
namespace on the first batch only, tagged with the caller-supplied global
step (the event trace is newest-first, so the optional `Valid/loss` scalar
precedes the four grids, which precede the validation-entry marker). -/
theorem C5_validate_contract (fw : List ℚ → Tensor → Tensor) (b : Batch)
    (rest : List Batch) (li : Bool) (gs : Nat) (s : Args)
    (hw : s.writer = some ()) :
    (validate fw (b :: rest) li gs s).2 =
      validLossSum fw s.netParams (b :: rest) / ((b :: rest).length : ℚ) ∧
    (validate fw (b :: rest) li gs s).1.events =
      (if li then
        [Ev.scalar "Valid/loss" ((validate fw (b :: rest) li gs s).2) gs]
      else []) ++
      Ev.image ("Valid" ++ "/pred_image") gs :: Ev.image ("Valid" ++ "/pred") gs ::
      Ev.image ("Valid" ++ "/gt_image") gs :: Ev.image ("Valid" ++ "/gt") gs ::
      Ev.validRun gs :: s.events := by
  have ht : (trace s (Ev.validRun gs)).writer = some () := by
    rw [trace_writer]
    exact hw
  refine ⟨validate_loss fw (b :: rest) li gs s, ?_⟩
  rw [validate_loss fw (b :: rest) li gs s]
  simp only [validate]
  rw [validateLoop_head, trace_netParams]
  cases li with
  | false =>
    simp only [if_neg (by simp : ¬ (false = true)), List.nil_append]
    rw [add_tb_events_some gs "Valid" (trace s (Ev.validRun gs)) ht, trace_events]
  | true =>
    simp only [eq_self_iff_true, if_true, List.singleton_append]
    rw [emit_events_some (add_tensorboard gs "Valid" (trace s (Ev.validRun gs)))
        (Ev.scalar "Valid/loss"
          (validLossSum fw s.netParams (b :: rest) / ((b :: rest).length : ℚ)) gs)
        (by rw [add_tb_writer]; exact ht),
      add_tb_events_some gs "Valid" (trace s (Ev.validRun gs)) ht, trace_events]

/-- Witness for C5 on a one-batch validation partition with the writer
attached: the mean equals the single batch loss over one, and the trace adds
the scalar, the four `Valid` grids and the validation marker. -/
theorem C5_validate_contract_witness :
    (validate fw0 [zeroBatch] true 5 args0w).2 =
      validLossSum fw0 args0w.netParams [zeroBatch] /
        (([zeroBatch] : List Batch).length : ℚ) ∧
    (validate fw0 [zeroBatch] true 5 args0w).1.events =
      [Ev.scalar "Valid/loss" ((validate fw0 [zeroBatch] true 5 args0w).2) 5] ++
      Ev.image ("Valid" ++ "/pred_image") 5 :: Ev.image ("Valid" ++ "/pred") 5 ::
      Ev.image ("Valid" ++ "/gt_image") 5 :: Ev.image ("Valid" ++ "/gt") 5 ::
      Ev.validRun 5 :: args0w.events := by
  have h := C5_validate_contract fw0 zeroBatch [] true 5 args0w rfl
  exact ⟨h.1, h.2⟩

/-- C10: a `store_true` flag parses to a boolean, never `None`, so the guard
`args.predict is None` in `main` is always false: `main` never attaches the
summary writer (the writer field is left exactly as parsed, i.e. absent) and
never reaches the writer-close branch; nevertheless every call of
`batch_status` performs at least one access on `args.writer` (the per-step
scalar log and the flush). -/
theorem C10_writer_never_assigned :
    (∀ p : Bool, (storeTrueParse p).isNone = false) ∧
    (∀ (c : Bool) (s : Args) (p : Bool), s.predict = storeTrueParse p →
      (mainSetup c s).writer = s.writer) ∧
    (∀ (fw : List ℚ → Tensor → Tensor) (ou : List ℚ → Batch → List ℚ)
      (fwc : List ℚ → CTensor → CTensor) (ip : List ℚ) (tb vb : List Batch)
      (pb : List PBatch) (c : Bool) (a : Args) (p : Bool),
      a.predict = storeTrueParse p → Ev.closeWriter ∉ a.events →
      Ev.closeWriter ∉ (mainRun fw ou fwc ip tb vb pb c a).events) ∧
    (∀ (fw : List ℚ → Tensor → Tensor) (batch_idx epoch : Nat)
      (vb : List Batch) (loss : ℚ) (s : Args),
      s.writerAccesses < (batch_status fw batch_idx epoch vb loss s).writerAccesses) := by
  refine ⟨fun p => rfl, fun c s p h => ms_writer c s p h, ?_, ?_⟩
  · intro fw ou fwc ip tb vb pb c a p ha hn
    simp only [mainRun]
    have hms : ({ mainSetup c a with netParams := ip } : Args).events = a.events := by
      rw [show ({ mainSetup c a with netParams := ip } : Args).events =
        (mainSetup c a).events from rfl, ms_events]
    have hmp : ({ mainSetup c a with netParams := ip } : Args).predict = some p := by
      rw [show ({ mainSetup c a with netParams := ip } : Args).predict =
        (mainSetup c a).predict from rfl, ms_predict, ha]
      rfl
    split
    · rw [hms]
      exact hn
    · have hinner : (if truthy ({ mainSetup c a with netParams := ip } : Args).predict
          then (predict_test fwc pb { mainSetup c a with netParams := ip }).1
          else train fw ou tb vb
            { mainSetup c a with netParams := ip }).predict = some p := by
        split
        · rw [pt_state]
          rw [predict_of_quietView (rc_quietView _)]
          exact hmp
        · rw [predict_of_quietView (train_quietView fw ou tb vb _)]
          exact hmp
      rw [if_neg (by rw [hinner]; simp)]
      have hbase : Ev.closeWriter ∉
          ({ mainSetup c a with netParams := ip } : Args).events := by
        rw [hms]
        exact hn
      split
      · rw [pt_state, rc_events]
        exact hbase
      · exact evExt_not_mem (train_evExt fw ou tb vb _) hbase
  · intro fw batch_idx epoch vb loss s
    exact bs_accesses_lt fw batch_idx epoch vb loss s

/-- Witness for C10 at concrete inputs: the parsed flag is not `None`, the
setup phase leaves the absent writer absent, a full training `main` run never
closes a writer, and one `batch_status` call on the default state performs a
writer access. -/
theorem C10_writer_never_assigned_witness :
    (storeTrueParse false).isNone = false ∧
    (mainSetup false args0).writer = args0.writer ∧
    Ev.closeWriter ∉
      (mainRun fw0 ou0 fwc0 [] sevenBatches [] [] false args0).events ∧
    args0.writerAccesses < (batch_status fw0 1 0 [] 0 args0).writerAccesses := by
  have h := C10_writer_never_assigned
  exact ⟨h.1 false, h.2.1 false args0 false rfl,
    h.2.2.1 fw0 ou0 fwc0 [] sevenBatches [] [] false args0 false rfl
      (by simp [args0]),
    h.2.2.2 fw0 1 0 [] 0 args0⟩

/-- C9: when the accelerator is requested but unavailable, the device
resolution of `main` silently selects the CPU and the (total) function
continues rather than raising; when the accelerator is available it selects
it. -/
theorem C9_cuda_fallback_silent :
    resolveDevice "cuda" false = "cpu" ∧
    resolveDevice "cuda" true = "cuda:0" ∧
    resolveDevice "cpu" false = "cpu" ∧
    (∀ (c : Bool) (s : Args), (mainSetup c s).device = resolveDevice s.device c) :=
  ⟨by decide, by decide, by decide, fun c s => ms_device c s⟩

end Posture
